import Mathlib

/-!
Shallow embedding of the finances report program (src/main.py).

Dates are modelled as year/month/day triples of naturals with the
Gregorian month lengths, and monetary amounts as rationals (the source
uses exact decimal arithmetic, a subring of the rationals).  The pure
computation of main — fixed/variable due classification, cash-flow
aggregation, the trailing 3-month outflow estimate and the report
totals — is embedded as computable functions; the selection of the
last previous-month transaction of a variable expense is fallible and
is embedded in Option.
-/

structure Date where
  year : Nat
  month : Nat
  day : Nat
deriving DecidableEq, Repr

/-- Gregorian leap-year rule, as in the datetime library. -/
def isLeapYear (y : Nat) : Bool :=
  y % 4 == 0 && (y % 100 != 0 || y % 400 == 0)

/-- Number of days of month m of year y, as in the datetime library. -/
def daysInMonth (y m : Nat) : Nat :=
  if m = 2 then (if isLeapYear y then 29 else 28)
  else if m = 4 ∨ m = 6 ∨ m = 9 ∨ m = 11 then 30
  else 31

/-- d.replace with day set to 1. -/
def replaceDay1 (d : Date) : Date :=
  ⟨d.year, d.month, 1⟩

/-- Subtracting timedelta of one day from a valid date. -/
def predDay (d : Date) : Date :=
  if 1 < d.day then ⟨d.year, d.month, d.day - 1⟩
  else if 1 < d.month then ⟨d.year, d.month - 1, daysInMonth d.year (d.month - 1)⟩
  else ⟨d.year - 1, 12, 31⟩

/-- Validity of a date triple, as enforced by the datetime library. -/
def ValidDate (d : Date) : Prop :=
  1 ≤ d.year ∧ 1 ≤ d.month ∧ d.month ≤ 12 ∧ 1 ≤ d.day ∧ d.day ≤ daysInMonth d.year d.month

instance (d : Date) : Decidable (ValidDate d) := by
  unfold ValidDate; infer_instance

/-- in_same_month from src/main.py line 85. -/
def in_same_month (a b : Date) : Bool :=
  a.year == b.year && a.month == b.month

/-- round_money from src/main.py line 89: ceil of amount*100, over 100. -/
def round_money (amount : ℚ) : ℚ :=
  (Int.ceil (amount * 100) : ℚ) / 100

/-- minus_months from src/main.py line 93: n times, set the day to 1 and
go back one day. -/
def minus_months (d : Date) : Nat → Date
  | 0 => d
  | n + 1 => minus_months (predDay (replaceDay1 d)) n

/-- Loop body of in_past_months: step to the first day of the month
before toCheck, test, and continue. -/
def in_past_go (d : Date) (toCheck : Date) : Nat → Bool
  | 0 => false
  | n + 1 =>
    let tc := replaceDay1 (predDay toCheck)
    in_same_month d tc || in_past_go d tc n

/-- in_past_months from src/main.py line 99. -/
def in_past_months (start : Date) (n : Nat) (d : Date) : Bool :=
  in_past_go d (replaceDay1 start) n

structure Transaction where
  posted : Date
  amount : ℚ
deriving DecidableEq, Repr

structure Account where
  name : String
  split : Bool
  txns : List Transaction
deriving DecidableEq, Repr

structure FixedExpense where
  name : String
  split : Bool
  amount : ℚ
deriving DecidableEq, Repr

structure VariableExpense where
  name : String
  split : Bool
  txns : List Transaction
deriving DecidableEq, Repr

/-- The split lists of profile.json used by the constructors. -/
structure Profile where
  split_accounts : List String
  split_variable_expenses : List String
deriving Repr

/-- Account construction, src/main.py lines 35-37: the split flag is
membership of the filename in the split_accounts list of the profile. -/
def mkAccount (filename : String) (profile : Profile) (txns : List Transaction) : Account :=
  ⟨filename, profile.split_accounts.contains filename, txns⟩

/-- VariableExpense construction, src/main.py lines 75-77: the split flag
is membership of the filename in split_variable_expenses. -/
def mkVariableExpense (filename : String) (profile : Profile) (txns : List Transaction) :
    VariableExpense :=
  ⟨filename, profile.split_variable_expenses.contains filename, txns⟩

/-- One iteration of the fixed-expense loop, src/main.py lines 129-133:
accumulator is the pair of split_due and solo_due. -/
def fixedDueStep (acc : ℚ × ℚ) (e : FixedExpense) : ℚ × ℚ :=
  if e.split then (acc.1 + e.amount / 2, acc.2) else (acc.1, acc.2 + e.amount)

/-- The last element, in input order, of the amounts of the transactions
of e posted in the same month as prevMo (src/main.py line 136); none when
the filtered list is empty, where the source raises IndexError. -/
def lastMatchingAmount (prevMo : Date) (e : VariableExpense) : Option ℚ :=
  ((e.txns.filter (fun t => in_same_month t.posted prevMo)).map (fun t => t.amount)).getLast?

/-- One iteration of the variable-expense loop, src/main.py lines 135-140. -/
def varStep (prevMo : Date) (acc : ℚ × ℚ) (e : VariableExpense) : Option (ℚ × ℚ) :=
  match lastMatchingAmount prevMo e with
  | none => none
  | some a =>
    let amount := a / 2
    some (if e.split then (acc.1 + amount / 2, acc.2) else (acc.1, acc.2 + amount))

/-- The variable-expense loop over the whole list. -/
def varDue (prevMo : Date) (acc : ℚ × ℚ) : List VariableExpense → Option (ℚ × ℚ)
  | [] => some acc
  | e :: es =>
    match varStep prevMo acc e with
    | none => none
    | some acc2 => varDue prevMo acc2 es

/-- amount_in of one account, src/main.py lines 148-150: sum of the
amounts of the transactions with positive amount posted in prevMo. -/
def amount_in (prevMo : Date) (a : Account) : ℚ :=
  ((a.txns.filter (fun t => decide (0 < t.amount) && in_same_month t.posted prevMo)).map
    (fun t => t.amount)).sum

/-- amount_out of one account, src/main.py lines 151-153. -/
def amount_out (prevMo : Date) (a : Account) : ℚ :=
  ((a.txns.filter (fun t => decide (t.amount < 0) && in_same_month t.posted prevMo)).map
    (fun t => t.amount)).sum

/-- One iteration of the account loop, src/main.py lines 147-159:
accumulator is (split_in, split_out, solo_in, solo_out). -/
def cashStep (prevMo : Date) (acc : ℚ × ℚ × ℚ × ℚ) (a : Account) : ℚ × ℚ × ℚ × ℚ :=
  if a.split then
    (acc.1 + amount_in prevMo a / 2, acc.2.1 + amount_out prevMo a / 2, acc.2.2.1, acc.2.2.2)
  else
    (acc.1, acc.2.1, acc.2.2.1 + amount_in prevMo a, acc.2.2.2 + amount_out prevMo a)

/-- The cash-flow accumulators over the whole account list. -/
def cashFlow (prevMo : Date) (accounts : List Account) : ℚ × ℚ × ℚ × ℚ :=
  accounts.foldl (cashStep prevMo) (0, 0, 0, 0)

/-- Inner per-account sum of est_out, src/main.py lines 161-163: amounts
(halved when the account is split) of the transactions posted within the
past 3 months of dueMo. -/
def estAcct (dueMo : Date) (a : Account) : ℚ :=
  ((a.txns.filter (fun t => in_past_months dueMo 3 t.posted)).map
    (fun t => if a.split then t.amount / 2 else t.amount)).sum

/-- est_out, src/main.py lines 161-164: negated grand total over the
accounts, divided by 3. -/
def est_out (dueMo : Date) (accounts : List Account) : ℚ :=
  -((accounts.map (fun a => estAcct dueMo a)).sum) / 3

/-- Specification-side window test for the trailing 3-month estimate,
written from the words of the spec: the posted month is one of the 3
calendar months immediately preceding the month of dueMo, expressed
with linear month indices rather than by stepping through dates. -/
def inWindow3 (dueMo p : Date) : Bool :=
  (12 * p.year + p.month + 1 == 12 * dueMo.year + dueMo.month) ||
  (12 * p.year + p.month + 2 == 12 * dueMo.year + dueMo.month) ||
  (12 * p.year + p.month + 3 == 12 * dueMo.year + dueMo.month)

/-- Specification-side: the transactions of an account posted in the
reference month. -/
def monthTxns (prevMo : Date) (a : Account) : List Transaction :=
  a.txns.filter (fun t => in_same_month t.posted prevMo)

/-- Specification-side amount_in, written from the words of the spec:
first restrict to the reference month, then keep the strictly positive
amounts and sum them. -/
def amount_in_spec (prevMo : Date) (a : Account) : ℚ :=
  (((monthTxns prevMo a).filter (fun t => decide (0 < t.amount))).map (fun t => t.amount)).sum

/-- Specification-side amount_out: first restrict to the reference
month, then keep the strictly negative amounts and sum them. -/
def amount_out_spec (prevMo : Date) (a : Account) : ℚ :=
  (((monthTxns prevMo a).filter (fun t => decide (t.amount < 0))).map (fun t => t.amount)).sum

/-- Specification-side account step for the cash-flow aggregator. -/
def cashStep_spec (prevMo : Date) (acc : ℚ × ℚ × ℚ × ℚ) (a : Account) : ℚ × ℚ × ℚ × ℚ :=
  if a.split then
    (acc.1 + amount_in_spec prevMo a / 2, acc.2.1 + amount_out_spec prevMo a / 2,
      acc.2.2.1, acc.2.2.2)
  else
    (acc.1, acc.2.1, acc.2.2.1 + amount_in_spec prevMo a, acc.2.2.2 + amount_out_spec prevMo a)

/-- Specification-side cash-flow aggregator. -/
def cashFlow_spec (prevMo : Date) (accounts : List Account) : ℚ × ℚ × ℚ × ℚ :=
  accounts.foldl (cashStep_spec prevMo) (0, 0, 0, 0)

structure Report where
  split_due : ℚ
  solo_due : ℚ
  split_in : ℚ
  split_out : ℚ
  solo_in : ℚ
  solo_out : ℚ
  estimated : ℚ
  net_due : ℚ
  net_in_out : ℚ
deriving DecidableEq, Repr

/-- The whole pure computation of main, src/main.py lines 124-167: the
previous month is one month before the due month; fixed then variable
expenses accumulate split_due and solo_due (none when a variable expense
has no previous-month transaction); accounts accumulate the four
cash-flow totals; est_out is the trailing 3-month estimate; the nets are
the two grand totals. -/
def computeReport (dueMo : Date) (accounts : List Account) (fixed : List FixedExpense)
    (vars : List VariableExpense) : Option Report :=
  let prevMo := minus_months dueMo 1
  match varDue prevMo (fixed.foldl fixedDueStep (0, 0)) vars with
  | none => none
  | some due =>
    let cf := cashFlow prevMo accounts
    let eo := est_out dueMo accounts
    some
      { split_due := due.1
        solo_due := due.2
        split_in := cf.1
        split_out := cf.2.1
        solo_in := cf.2.2.1
        solo_out := cf.2.2.2
        estimated := eo
        net_due := due.1 + due.2 + eo
        net_in_out := cf.1 + cf.2.1 + cf.2.2.1 + cf.2.2.2 }

/-! Helper lemmas on the date functions. -/

lemma daysInMonth_dec12 (y : Nat) : daysInMonth y 12 = 31 := by
  simp [daysInMonth]

lemma predDay_replaceDay1 (d : Date) (h1 : 1 ≤ d.month) (h2 : d.month ≤ 12)
    (h3 : 14 ≤ 12 * d.year + d.month) :
    (predDay (replaceDay1 d)).day
      = daysInMonth (predDay (replaceDay1 d)).year (predDay (replaceDay1 d)).month
    ∧ 1 ≤ (predDay (replaceDay1 d)).month ∧ (predDay (replaceDay1 d)).month ≤ 12
    ∧ 12 * (predDay (replaceDay1 d)).year + (predDay (replaceDay1 d)).month + 1
      = 12 * d.year + d.month
    ∧ 1 ≤ (predDay (replaceDay1 d)).year := by
  obtain ⟨y, m, day⟩ := d
  simp only [replaceDay1, predDay] at *
  by_cases hm : 1 < m
  · simp only [if_neg (by omega : ¬ (1:Nat) < 1), if_pos hm]
    exact ⟨by simp, by omega, by omega, by omega, by omega⟩
  · simp only [if_neg (by omega : ¬ (1:Nat) < 1), if_neg hm]
    exact ⟨by simp [daysInMonth], by omega, by omega, by omega, by omega⟩

lemma minus_months_succ_shape (n : Nat) : ∀ d : Date, 1 ≤ d.month → d.month ≤ 12 →
    n + 14 ≤ 12 * d.year + d.month →
    (minus_months d (n+1)).day
      = daysInMonth (minus_months d (n+1)).year (minus_months d (n+1)).month
    ∧ 1 ≤ (minus_months d (n+1)).month ∧ (minus_months d (n+1)).month ≤ 12
    ∧ 12 * (minus_months d (n+1)).year + (minus_months d (n+1)).month + (n+1)
      = 12 * d.year + d.month
    ∧ 1 ≤ (minus_months d (n+1)).year := by
  induction n with
  | zero =>
    intro d h1 h2 h3
    have hs := predDay_replaceDay1 d h1 h2 (by omega)
    have he : minus_months d (0+1) = predDay (replaceDay1 d) := rfl
    rw [he]
    exact ⟨hs.1, hs.2.1, hs.2.2.1, by omega, hs.2.2.2.2⟩
  | succ n ih =>
    intro d h1 h2 h3
    have hs := predDay_replaceDay1 d h1 h2 (by omega)
    have hr := ih (predDay (replaceDay1 d)) hs.2.1 hs.2.2.1 (by omega)
    have he : minus_months d (n+1+1) = minus_months (predDay (replaceDay1 d)) (n+1) := rfl
    rw [he]
    exact ⟨hr.1, hr.2.1, hr.2.2.1, by omega, hr.2.2.2.2⟩

lemma in_same_month_iff (a b : Date) (ha1 : 1 ≤ a.month) (ha2 : a.month ≤ 12)
    (hb1 : 1 ≤ b.month) (hb2 : b.month ≤ 12) :
    in_same_month a b = true ↔ 12 * a.year + a.month = 12 * b.year + b.month := by
  simp only [in_same_month, Bool.and_eq_true, beq_iff_eq]
  omega

lemma in_past_go_iff (n : Nat) : ∀ t d : Date, t.day = 1 → 1 ≤ t.month → t.month ≤ 12 →
    n + 13 ≤ 12 * t.year + t.month → 1 ≤ d.month → d.month ≤ 12 →
    (in_past_go d t n = true ↔
      ∃ k, 1 ≤ k ∧ k ≤ n ∧ 12 * d.year + d.month + k = 12 * t.year + t.month) := by
  induction n with
  | zero =>
    intro t d _ _ _ _ _ _
    simp only [in_past_go, Bool.false_eq_true, false_iff]
    rintro ⟨k, hk1, hk2, -⟩
    omega
  | succ n ih =>
    intro t d hday h1 h2 h3 hd1 hd2
    have ht : replaceDay1 t = t := by
      obtain ⟨y, m, day⟩ := t
      simp only at hday
      simp [replaceDay1, hday]
    have hs := predDay_replaceDay1 t h1 h2 (by omega)
    rw [ht] at hs
    have hm1 : 1 ≤ (replaceDay1 (predDay t)).month := hs.2.1
    have hm2 : (replaceDay1 (predDay t)).month ≤ 12 := hs.2.2.1
    have hidx : 12 * (replaceDay1 (predDay t)).year + (replaceDay1 (predDay t)).month + 1
        = 12 * t.year + t.month := hs.2.2.2.1
    have hrec := ih (replaceDay1 (predDay t)) d rfl hm1 hm2 (by omega) hd1 hd2
    have he : in_past_go d t (n+1)
        = (in_same_month d (replaceDay1 (predDay t))
            || in_past_go d (replaceDay1 (predDay t)) n) := rfl
    rw [he, Bool.or_eq_true, hrec, in_same_month_iff d _ hd1 hd2 hm1 hm2]
    constructor
    · rintro (heq | ⟨k, hk1, hk2, hk3⟩)
      · exact ⟨1, by omega, by omega, by omega⟩
      · exact ⟨k + 1, by omega, by omega, by omega⟩
    · rintro ⟨k, hk1, hk2, hk3⟩
      by_cases hk : k = 1
      · subst hk
        left
        omega
      · right
        exact ⟨k - 1, by omega, by omega, by omega⟩

lemma in_past_months_iff_idx (start d : Date) (n : Nat)
    (h1 : 1 ≤ start.month) (h2 : start.month ≤ 12)
    (h3 : n + 13 ≤ 12 * start.year + start.month)
    (hd1 : 1 ≤ d.month) (hd2 : d.month ≤ 12) :
    in_past_months start n d = true ↔
      ∃ k, 1 ≤ k ∧ k ≤ n ∧ 12 * d.year + d.month + k = 12 * start.year + start.month :=
  in_past_go_iff n (replaceDay1 start) d rfl h1 h2 h3 hd1 hd2

/-! Claim theorems. -/

/-- C7: round_money is ceiling-to-cent rounding: it maps 12.341 to 12.35
and 12.00 to 12.00, and on every rational it never rounds down (the
result is at least the input, so it is rounding up toward the next cent,
not to the nearest cent) while staying below the input plus one cent. -/
theorem round_money_ceil_to_cent :
    round_money (12.341 : ℚ) = 12.35 ∧ round_money (12 : ℚ) = 12
    ∧ ∀ q : ℚ, q ≤ round_money q ∧ round_money q < q + 1/100 := by
  refine ⟨?_, ?_, fun q => ⟨?_, ?_⟩⟩
  · rw [round_money, show (12.341 : ℚ) * 100 = 12341/10 by norm_num,
      show ⌈(12341/10 : ℚ)⌉ = 1235 from by rw [Int.ceil_eq_iff]; norm_num]
    norm_num
  · rw [round_money, show (12 : ℚ) * 100 = ((1200 : ℤ) : ℚ) by norm_num, Int.ceil_intCast]
    norm_num
  · rw [round_money, le_div_iff₀ (by norm_num : (0:ℚ) < 100)]
    exact Int.le_ceil _
  · rw [round_money, div_lt_iff₀ (by norm_num : (0:ℚ) < 100)]
    calc (⌈q * 100⌉ : ℚ) < q * 100 + 1 := Int.ceil_lt_add_one _
      _ = (q + 1/100) * 100 := by ring

/-- C8: minus_months is iterated single-month stepping: zero months
leaves the date unchanged and stepping one month twice equals stepping
two months at once. -/
theorem minus_months_iterated (d : Date) :
    minus_months d 0 = d ∧ minus_months (minus_months d 1) 1 = minus_months d 2 :=
  ⟨rfl, rfl⟩

/-- C4 counterexample: on the valid date 2024-03-15 one step of
minus_months lands on 2024-02-29, whose day-of-month is not 1, refuting
the claim that minus_months always returns the first day of the target
month for n at least 1. -/
theorem minus_months_day_not_one :
    minus_months ⟨2024, 3, 15⟩ 1 = ⟨2024, 2, 29⟩
    ∧ (minus_months ⟨2024, 3, 15⟩ 1).day ≠ 1 := by
  constructor
  · rfl
  · decide

/-- C4 amended: for n at least 1 (with a valid month and enough room
above year 1), minus_months lands in the month exactly n months before
the month of d, and returns the last day of that month, its day-of-month
being the full day count of the month it lands in. -/
theorem minus_months_last_of_prior_month (d : Date) (n : Nat) (hn : 1 ≤ n)
    (h1 : 1 ≤ d.month) (h2 : d.month ≤ 12) (h3 : n + 13 ≤ 12 * d.year + d.month) :
    (minus_months d n).day = daysInMonth (minus_months d n).year (minus_months d n).month
    ∧ 1 ≤ (minus_months d n).month ∧ (minus_months d n).month ≤ 12
    ∧ 12 * (minus_months d n).year + (minus_months d n).month + n = 12 * d.year + d.month := by
  obtain ⟨m, rfl⟩ : ∃ m, n = m + 1 := ⟨n - 1, by omega⟩
  have hs := minus_months_succ_shape m d h1 h2 (by omega)
  exact ⟨hs.1, hs.2.1, hs.2.2.1, hs.2.2.2.1⟩

/-- C4 amended, witness at 2024-03-15 with n equal to 1. -/
theorem minus_months_last_of_prior_month_witness :
    (minus_months ⟨2024, 3, 15⟩ 1).day
      = daysInMonth (minus_months ⟨2024, 3, 15⟩ 1).year (minus_months ⟨2024, 3, 15⟩ 1).month
    ∧ 1 ≤ (minus_months ⟨2024, 3, 15⟩ 1).month ∧ (minus_months ⟨2024, 3, 15⟩ 1).month ≤ 12
    ∧ 12 * (minus_months ⟨2024, 3, 15⟩ 1).year + (minus_months ⟨2024, 3, 15⟩ 1).month + 1
      = 12 * 2024 + 3 :=
  minus_months_last_of_prior_month ⟨2024, 3, 15⟩ 1 (by decide) (by decide) (by decide) (by decide)

/-- C6: in_past_months start n d holds exactly when the month of d is
one of the n calendar months strictly before the month of start, stated
with linear month indices (12 times the year plus the month), which
makes the behaviour across year boundaries explicit; in particular it is
false for d in the month of start itself and false when d lies n+1 or
more months back. -/
theorem in_past_months_strict_window (start d : Date) (n : Nat)
    (h1 : 1 ≤ start.month) (h2 : start.month ≤ 12)
    (h3 : n + 13 ≤ 12 * start.year + start.month)
    (hd1 : 1 ≤ d.month) (hd2 : d.month ≤ 12) :
    in_past_months start n d = true ↔
      ∃ k, 1 ≤ k ∧ k ≤ n ∧ 12 * d.year + d.month + k = 12 * start.year + start.month :=
  in_past_months_iff_idx start d n h1 h2 h3 hd1 hd2

/-- C6 witness: with start 2024-01-15 the 3-month window contains
2023-12-05 across the year boundary, and does not contain the start
month itself nor a date 4 months back. -/
theorem in_past_months_strict_window_witness :
    in_past_months ⟨2024, 1, 15⟩ 3 ⟨2023, 12, 5⟩ = true
    ∧ in_past_months ⟨2024, 1, 15⟩ 3 ⟨2024, 1, 2⟩ = false
    ∧ in_past_months ⟨2024, 1, 15⟩ 3 ⟨2023, 9, 2⟩ = false := by
  refine ⟨?_, ?_, ?_⟩
  · exact (in_past_months_strict_window ⟨2024, 1, 15⟩ ⟨2023, 12, 5⟩ 3 (by decide) (by decide)
      (by decide) (by decide) (by decide)).mpr ⟨1, by decide, by decide, by decide⟩
  · have h := in_past_months_strict_window ⟨2024, 1, 15⟩ ⟨2024, 1, 2⟩ 3 (by decide) (by decide)
      (by decide) (by decide) (by decide)
    rw [Bool.eq_false_iff]
    intro hc
    obtain ⟨k, hk1, hk2, hk3⟩ := h.mp hc
    dsimp only at hk3
    omega
  · have h := in_past_months_strict_window ⟨2024, 1, 15⟩ ⟨2023, 9, 2⟩ 3 (by decide) (by decide)
      (by decide) (by decide) (by decide)
    rw [Bool.eq_false_iff]
    intro hc
    obtain ⟨k, hk1, hk2, hk3⟩ := h.mp hc
    dsimp only at hk3
    omega

/-- C1: one iteration of the variable-expense loop, given that the last
previous-month transaction has amount a, adds a quarter of a to the
split accumulator when the expense is split and half of a to the solo
accumulator otherwise; the double halving a/2/2 is exactly a/4. -/
theorem varStep_double_halving (prevMo : Date) (e : VariableExpense) (s p a : ℚ)
    (h : lastMatchingAmount prevMo e = some a) :
    varStep prevMo (s, p) e = some (if e.split then (s + a / 2 / 2, p) else (s, p + a / 2))
    ∧ a / 2 / 2 = a / 4 := by
  constructor
  · unfold varStep
    rw [h]
  · ring

/-- C1 witness: a last February amount of 200 contributes 50 to the
split accumulator when split, and 100 to the solo accumulator when not. -/
theorem varStep_double_halving_witness :
    varStep ⟨2024, 2, 1⟩ (0, 0) ⟨"gas.csv", true, [⟨⟨2024, 2, 10⟩, 200⟩]⟩ = some (50, 0)
    ∧ varStep ⟨2024, 2, 1⟩ (0, 0) ⟨"gas.csv", false, [⟨⟨2024, 2, 10⟩, 200⟩]⟩ = some (0, 100) := by
  constructor
  · rw [(varStep_double_halving ⟨2024, 2, 1⟩ ⟨"gas.csv", true, [⟨⟨2024, 2, 10⟩, 200⟩]⟩
      0 0 200 rfl).1]
    norm_num
  · rw [(varStep_double_halving ⟨2024, 2, 1⟩ ⟨"gas.csv", false, [⟨⟨2024, 2, 10⟩, 200⟩]⟩
      0 0 200 rfl).1]
    norm_num

lemma varStep_none (prevMo : Date) (acc : ℚ × ℚ) (e : VariableExpense)
    (h : lastMatchingAmount prevMo e = none) : varStep prevMo acc e = none := by
  unfold varStep
  rw [h]

lemma varDue_none_of_mem (prevMo : Date) (e : VariableExpense)
    (hnone : lastMatchingAmount prevMo e = none) :
    ∀ vars : List VariableExpense, e ∈ vars → ∀ acc, varDue prevMo acc vars = none := by
  intro vars
  induction vars with
  | nil =>
    intro h
    exact absurd h (List.not_mem_nil e)
  | cons v vs ih =>
    intro hmem acc
    rcases List.mem_cons.mp hmem with heq | hmem2
    · subst heq
      unfold varDue
      rw [varStep_none prevMo acc e hnone]
    · unfold varDue
      cases hv : varStep prevMo acc v with
      | none => rfl
      | some acc2 => exact ih hmem2 acc2

/-- C3: a VariableExpense with no transaction posted in the month one
month before the due month makes the whole report computation fail with
no result, the embedded image of the uncaught IndexError of main. -/
theorem no_matching_period (dueMo : Date) (accounts : List Account)
    (fixed : List FixedExpense) (vars : List VariableExpense) (e : VariableExpense)
    (he : e ∈ vars)
    (hnone : ∀ t ∈ e.txns, in_same_month t.posted (minus_months dueMo 1) = false) :
    computeReport dueMo accounts fixed vars = none := by
  have hlast : lastMatchingAmount (minus_months dueMo 1) e = none := by
    unfold lastMatchingAmount
    rw [List.filter_eq_nil_iff.mpr (fun t ht => by simp [hnone t ht])]
    rfl
  have hvd := varDue_none_of_mem (minus_months dueMo 1) e hlast vars he
    (fixed.foldl fixedDueStep (0, 0))
  simp only [computeReport]
  rw [hvd]

/-- C3 witness: due month 03/24 parses to 2024-03-01, whose previous
month is February 2024, and a variable expense whose only transaction is
in January 2024 makes the computation return none. -/
theorem no_matching_period_witness :
    computeReport ⟨2024, 3, 1⟩ [] [] [⟨"utilities.csv", false, [⟨⟨2024, 1, 5⟩, 100⟩]⟩] = none
    ∧ (minus_months ⟨2024, 3, 1⟩ 1).year = 2024 ∧ (minus_months ⟨2024, 3, 1⟩ 1).month = 2 := by
  refine ⟨no_matching_period ⟨2024, 3, 1⟩ [] [] _ ⟨"utilities.csv", false, [⟨⟨2024, 1, 5⟩, 100⟩]⟩
    (List.mem_singleton.mpr rfl) ?_, by decide, by decide⟩
  decide

lemma amount_in_eq_spec (prevMo : Date) (a : Account) :
    amount_in prevMo a = amount_in_spec prevMo a := by
  unfold amount_in amount_in_spec monthTxns
  rw [List.filter_filter]

lemma amount_out_eq_spec (prevMo : Date) (a : Account) :
    amount_out prevMo a = amount_out_spec prevMo a := by
  unfold amount_out amount_out_spec monthTxns
  rw [List.filter_filter]

/-- C5: the cash-flow aggregation of main coincides with the
specification-side aggregator that first restricts each account to the
transactions of the reference month, sums the strictly positive amounts
as amount_in and the strictly negative amounts as amount_out (so that
zero amounts count for neither), and adds the halved values to the split
accumulators for a split account and the full values to the solo
accumulators otherwise. -/
theorem cashFlow_matches_spec (prevMo : Date) (accounts : List Account) :
    cashFlow prevMo accounts = cashFlow_spec prevMo accounts := by
  unfold cashFlow cashFlow_spec
  congr 1
  funext acc a
  unfold cashStep cashStep_spec
  rw [amount_in_eq_spec, amount_out_eq_spec]

lemma inWindow3_iff (dueMo p : Date) :
    inWindow3 dueMo p = true ↔
      ∃ k, 1 ≤ k ∧ k ≤ 3 ∧ 12 * p.year + p.month + k = 12 * dueMo.year + dueMo.month := by
  simp only [inWindow3, Bool.or_eq_true, beq_iff_eq]
  constructor
  · rintro ((h | h) | h)
    · exact ⟨1, by omega, by omega, h⟩
    · exact ⟨2, by omega, by omega, h⟩
    · exact ⟨3, by omega, by omega, h⟩
  · rintro ⟨k, hk1, hk2, hk3⟩
    omega

lemma in_past_months3_eq_inWindow3 (dueMo p : Date)
    (h1 : 1 ≤ dueMo.month) (h2 : dueMo.month ≤ 12)
    (h3 : 16 ≤ 12 * dueMo.year + dueMo.month)
    (hp1 : 1 ≤ p.month) (hp2 : p.month ≤ 12) :
    in_past_months dueMo 3 p = inWindow3 dueMo p := by
  rw [Bool.eq_iff_iff, in_past_months_iff_idx dueMo p 3 h1 h2 (by omega) hp1 hp2, inWindow3_iff]

/-- C2: the trailing estimate of main equals the negated sum, over all
accounts, of the amounts (halved when the account is split, kept with
their sign otherwise unrestricted) of the transactions posted in one of
the 3 calendar months immediately preceding the due month, divided
by 3; the window is anchored at the due month itself, as the
specification-side test inWindow3 compares month indices against the
due month and not against the previous month. -/
theorem est_out_trailing_window (dueMo : Date) (accounts : List Account)
    (h1 : 1 ≤ dueMo.month) (h2 : dueMo.month ≤ 12)
    (h3 : 16 ≤ 12 * dueMo.year + dueMo.month)
    (htx : ∀ a ∈ accounts, ∀ t ∈ a.txns, 1 ≤ t.posted.month ∧ t.posted.month ≤ 12) :
    est_out dueMo accounts =
      -((accounts.map (fun a =>
          ((a.txns.filter (fun t => inWindow3 dueMo t.posted)).map
            (fun t => if a.split then t.amount / 2 else t.amount)).sum)).sum) / 3 := by
  unfold est_out
  have hmap : accounts.map (fun a => estAcct dueMo a)
      = accounts.map (fun a =>
          ((a.txns.filter (fun t => inWindow3 dueMo t.posted)).map
            (fun t => if a.split then t.amount / 2 else t.amount)).sum) := by
    apply List.map_congr_left
    intro a ha
    unfold estAcct
    rw [List.filter_congr (fun t ht =>
      in_past_months3_eq_inWindow3 dueMo t.posted h1 h2 h3 (htx a ha t ht).1 (htx a ha t ht).2)]
  rw [hmap]

/-- C2 witness: with due month February 2024 and one solo account having
one transaction of -30 in each of November 2023, December 2023 and
January 2024, the estimate formula applies and evaluates to 30. -/
theorem est_out_trailing_window_witness :
    est_out ⟨2024, 2, 1⟩
        [⟨"chk.ally.csv", false,
          [⟨⟨2024, 1, 10⟩, -30⟩, ⟨⟨2023, 12, 5⟩, -30⟩, ⟨⟨2023, 11, 2⟩, -30⟩]⟩] =
      -((([⟨"chk.ally.csv", false,
          [⟨⟨2024, 1, 10⟩, -30⟩, ⟨⟨2023, 12, 5⟩, -30⟩, ⟨⟨2023, 11, 2⟩, -30⟩]⟩] :
            List Account).map (fun a =>
          ((a.txns.filter (fun t => inWindow3 ⟨2024, 2, 1⟩ t.posted)).map
            (fun t => if a.split then t.amount / 2 else t.amount)).sum)).sum) / 3
    ∧ est_out ⟨2024, 2, 1⟩
        [⟨"chk.ally.csv", false,
          [⟨⟨2024, 1, 10⟩, -30⟩, ⟨⟨2023, 12, 5⟩, -30⟩, ⟨⟨2023, 11, 2⟩, -30⟩]⟩] = 30 := by
  have h := est_out_trailing_window ⟨2024, 2, 1⟩
    [⟨"chk.ally.csv", false,
      [⟨⟨2024, 1, 10⟩, -30⟩, ⟨⟨2023, 12, 5⟩, -30⟩, ⟨⟨2023, 11, 2⟩, -30⟩]⟩]
    (by decide) (by decide) (by decide) (by decide)
  refine ⟨h, ?_⟩
  rw [h]
  norm_num [inWindow3]

lemma varDue_isSome (prevMo : Date) :
    ∀ vars : List VariableExpense,
      (∀ e ∈ vars, (lastMatchingAmount prevMo e).isSome = true) →
      ∀ acc, (varDue prevMo acc vars).isSome = true := by
  intro vars
  induction vars with
  | nil =>
    intro _ acc
    rfl
  | cons v vs ih =>
    intro h acc
    obtain ⟨a, ha⟩ := Option.isSome_iff_exists.mp (h v (List.mem_cons_self v vs))
    have hv : varStep prevMo acc v
        = some (if v.split then (acc.1 + a / 2 / 2, acc.2) else (acc.1, acc.2 + a / 2)) := by
      unfold varStep
      rw [ha]
    unfold varDue
    rw [hv]
    exact ih (fun e he => h e (List.mem_cons_of_mem v he)) _

/-- C9: a filename missing from the split lists of the profile gives a
solo classification, split false, for both account and variable-expense
construction, and this is no error: the report computation on such an
account still produces a result whenever every variable expense has a
matching previous-month transaction. -/
theorem unlisted_defaults_to_solo (profile : Profile) (fnA fnV : String)
    (txA txV : List Transaction)
    (hA : profile.split_accounts.contains fnA = false)
    (hV : profile.split_variable_expenses.contains fnV = false) :
    (mkAccount fnA profile txA).split = false
    ∧ (mkVariableExpense fnV profile txV).split = false
    ∧ ∀ (dueMo : Date) (accounts : List Account) (fixed : List FixedExpense)
        (vars : List VariableExpense),
        (∀ e ∈ vars, (lastMatchingAmount (minus_months dueMo 1) e).isSome = true) →
        (computeReport dueMo (mkAccount fnA profile txA :: accounts) fixed vars).isSome
          = true := by
  refine ⟨hA, hV, ?_⟩
  intro dueMo accounts fixed vars hv
  obtain ⟨due, hdue⟩ := Option.isSome_iff_exists.mp
    (varDue_isSome (minus_months dueMo 1) vars hv (fixed.foldl fixedDueStep (0, 0)))
  simp only [computeReport]
  rw [hdue]
  rfl

/-- C9 witness: with a profile listing only other filenames, the account
and variable expense built from unlisted filenames are solo and the
computation still returns a result. -/
theorem unlisted_defaults_to_solo_witness :
    (mkAccount "other.ally.csv" ⟨["joint.ally.csv"], ["rent.csv"]⟩ []).split = false
    ∧ (mkVariableExpense "water.csv" ⟨["joint.ally.csv"], ["rent.csv"]⟩ []).split = false
    ∧ (computeReport ⟨2024, 3, 1⟩
        [mkAccount "other.ally.csv" ⟨["joint.ally.csv"], ["rent.csv"]⟩ []] [] []).isSome
        = true := by
  have h := unlisted_defaults_to_solo ⟨["joint.ally.csv"], ["rent.csv"]⟩
    "other.ally.csv" "water.csv" [] [] rfl rfl
  exact ⟨h.1, h.2.1, h.2.2 ⟨2024, 3, 1⟩ [] [] [] (by simp)⟩

lemma amount_in_append_zero (prevMo : Date) (a : Account) (d0 : Date) :
    amount_in prevMo { a with txns := a.txns ++ [⟨d0, 0⟩] } = amount_in prevMo a := by
  unfold amount_in
  rw [List.filter_append]
  have h0 : (([⟨d0, 0⟩] : List Transaction).filter
      (fun t => decide (0 < t.amount) && in_same_month t.posted prevMo)) = [] := by
    simp [List.filter]
  rw [h0, List.append_nil]

lemma amount_out_append_zero (prevMo : Date) (a : Account) (d0 : Date) :
    amount_out prevMo { a with txns := a.txns ++ [⟨d0, 0⟩] } = amount_out prevMo a := by
  unfold amount_out
  rw [List.filter_append]
  have h0 : (([⟨d0, 0⟩] : List Transaction).filter
      (fun t => decide (t.amount < 0) && in_same_month t.posted prevMo)) = [] := by
    simp [List.filter]
  rw [h0, List.append_nil]

lemma estAcct_append_zero (dueMo : Date) (a : Account) (d0 : Date) :
    estAcct dueMo { a with txns := a.txns ++ [⟨d0, 0⟩] } = estAcct dueMo a := by
  unfold estAcct
  rw [List.filter_append, List.map_append, List.sum_append]
  have h0 : ((([⟨d0, 0⟩] : List Transaction).filter
        (fun t => in_past_months dueMo 3 t.posted)).map
      (fun t => if a.split then t.amount / 2 else t.amount)).sum = 0 := by
    cases hb : in_past_months dueMo 3 d0 <;> simp [List.filter, hb]
  rw [h0, add_zero]

lemma cashStep_append_zero (prevMo : Date) (acc : ℚ × ℚ × ℚ × ℚ) (a : Account) (d0 : Date) :
    cashStep prevMo acc { a with txns := a.txns ++ [⟨d0, 0⟩] } = cashStep prevMo acc a := by
  unfold cashStep
  rw [amount_in_append_zero, amount_out_append_zero]

/-- C10: appending a transaction of amount zero, with any posted date,
to any account of the list leaves the entire report unchanged: the
positive and negative filters of the cash-flow aggregation drop it, and
in the trailing estimate it contributes zero to the sum, so split_in,
split_out, solo_in, solo_out, the estimate and both net totals are the
same as without it. -/
theorem zero_amount_txn_no_effect (dueMo : Date) (pre post : List Account) (a : Account)
    (d0 : Date) (fixed : List FixedExpense) (vars : List VariableExpense) :
    computeReport dueMo (pre ++ { a with txns := a.txns ++ [⟨d0, 0⟩] } :: post) fixed vars
      = computeReport dueMo (pre ++ a :: post) fixed vars := by
  have hcf : cashFlow (minus_months dueMo 1)
        (pre ++ { a with txns := a.txns ++ [⟨d0, 0⟩] } :: post)
      = cashFlow (minus_months dueMo 1) (pre ++ a :: post) := by
    unfold cashFlow
    rw [List.foldl_append, List.foldl_append, List.foldl_cons, List.foldl_cons,
      cashStep_append_zero]
  have heo : est_out dueMo (pre ++ { a with txns := a.txns ++ [⟨d0, 0⟩] } :: post)
      = est_out dueMo (pre ++ a :: post) := by
    unfold est_out
    rw [List.map_append, List.map_append, List.map_cons, List.map_cons, estAcct_append_zero]
  simp only [computeReport, hcf, heo]
